import Mathlib

/-!
Verification of the JT/T 808 / JT/T 1078 dashcam server (repository DASHCAM).

This development shallowly embeds the protocol codec (`jt808_protocol.py`),
the stored-video-list reassembly state machine and the live-video frame
reassembly logic of the device session handler (`server.py`), and proves or
refutes the specification's claims about them.

Modelling conventions:
- A byte string is a `List Nat`; every operation mirrors the Python source
  byte-for-byte (slices become `drop`/`take`, `struct.unpack('>H', ...)`
  becomes `256 * b0 + b1`, and so on).
- Fallible Python code is `Option`: a `return None` and an uncaught
  `struct.error` both become `none`.
- `print` statements have no semantic effect and are dropped; in particular
  `parse_message` only logs on a checksum mismatch and continues, and
  `build_response` only logs validation warnings and always builds.
- Wall-clock reads (`time.time()`) never influence the paths modelled here
  except through the 10 s list-buffer timeout; the state machines below model
  the prompt-arrival behaviour in which that timeout never fires, and the
  live-frame path, which consults no clock at all, is additionally given a
  timed runner that demonstrably ignores arrival times.
-/

set_option autoImplicit false
set_option maxRecDepth 8192

namespace Dashcam

/-! ## Codec (`jt808_protocol.py`) -/

/-- `JT808Parser.escape_decode`: replace `0x7D 0x01 → 0x7D` and
`0x7D 0x02 → 0x7E`; a `0x7D` followed by anything else (or at the end of the
input) is passed through verbatim, exactly as the Python loop does. -/
def escape_decode : List Nat → List Nat
  | [] => []
  | [a] => [a]
  | a :: b :: rest =>
    if a = 0x7D then
      if b = 0x01 then 0x7D :: escape_decode rest
      else if b = 0x02 then 0x7E :: escape_decode rest
      else a :: escape_decode (b :: rest)
    else a :: escape_decode (b :: rest)

/-- `JT808Parser.escape_encode`: `0x7D → 0x7D 0x01`, `0x7E → 0x7D 0x02`. -/
def escape_encode : List Nat → List Nat
  | [] => []
  | b :: rest =>
    (if b = 0x7D then [0x7D, 0x01]
     else if b = 0x7E then [0x7D, 0x02]
     else [b]) ++ escape_encode rest

/-- `JT808Parser.calculate_checksum`: XOR of all bytes. -/
def calculate_checksum (data : List Nat) : Nat :=
  data.foldl Nat.xor 0

/-- `struct.pack('>H', n)` (big-endian 16-bit); callers guard `n < 65536`. -/
def pack16 (n : Nat) : List Nat := [n / 256, n % 256]

/-- `struct.unpack('>H', l[0:2])`: big-endian 16-bit read of the first two
bytes (out-of-range reads are guarded by the callers, as in the source). -/
def u16of (l : List Nat) : Nat := 256 * l.getD 0 0 + l.getD 1 0

/-- `struct.unpack('>I', l[0:4])`: big-endian 32-bit read. -/
def u32of (l : List Nat) : Nat :=
  256 * (256 * (256 * l.getD 0 0 + l.getD 1 0) + l.getD 2 0) + l.getD 3 0

/-- The dictionary `JT808Parser.parse_message` returns (the `raw` echo of the
input bytes is omitted; no claim concerns it). `phone` is the byte sequence
kept by `decode('ascii', errors='ignore')`, i.e. the bytes `< 128`. -/
structure ParsedMsg where
  msg_id : Nat
  msg_attr : Nat
  phone : List Nat
  msg_seq : Nat
  body : List Nat
  deriving Repr, DecidableEq

/-- `JT808Parser.parse_message`. A checksum mismatch only prints a warning and
parsing continues ("Continue anyway for debugging"); the result never depends
on the trailing BCC octet. When the unstuffed interior is 11 or 12 bytes the
Python `struct.unpack('>H', message_data[10:12])` raises `struct.error`
(slice shorter than 2); that uncaught exception is modelled as `none`. -/
def parse_message (data : List Nat) : Option ParsedMsg :=
  if data.length < 12 then none
  else if data.getD 0 0 ≠ 0x7E then none
  else if data.getD (data.length - 1) 0 ≠ 0x7E then none
  else
    let body := escape_decode ((data.drop 1).dropLast)
    if body.length < 11 then none
    else
      let message_data := body.dropLast
      if message_data.length < 12 then none
      else
        some { msg_id := u16of message_data
               msg_attr := u16of (message_data.drop 2)
               phone := ((message_data.drop 4).take 6).filter (fun b => b < 128)
               msg_seq := u16of (message_data.drop 10)
               body := message_data.drop 12 }

/-- `JT808Parser.build_response`. The call to `validate_message_format` only
prints warnings and never prevents building, so it does not appear here; the
only failure modes are the `struct.pack` range errors (`msg_id`, `msg_seq`,
`len(body)` must fit 16 bits) and `phone.encode('ascii')` on a non-ASCII
character, all modelled as `none`. -/
def build_response (msg_id : Nat) (phone : List Nat) (msg_seq : Nat)
    (body : List Nat) : Option (List Nat) :=
  if msg_id < 65536 ∧ msg_seq < 65536 ∧ body.length < 65536 ∧
      (∀ b ∈ phone, b < 128) then
    let header := pack16 msg_id ++ pack16 body.length ++
      ((phone ++ List.replicate (6 - phone.length) 0).take 6) ++ pack16 msg_seq
    let message_data := header ++ body
    let checksum := calculate_checksum message_data
    some (0x7E :: (escape_encode (message_data ++ [checksum]) ++ [0x7E]))
  else none

/-- The header-through-body span whose XOR is the frame's BCC
(message id, attribute = body length, padded phone, sequence, body). -/
def headerBody (msg_id : Nat) (phone : List Nat) (msg_seq : Nat)
    (body : List Nat) : List Nat :=
  pack16 msg_id ++ pack16 body.length ++
    ((phone ++ List.replicate (6 - phone.length) 0).take 6) ++ pack16 msg_seq ++ body

/-! ## Stored-video-list parsing (`JT808Parser.parse_video_list_response`) -/

/-- BCD nibble expansion: the Python builds the time string
`''.join(f'{b >> 4}{b & 0x0F}' for b in bs)`; we keep the nibble values. -/
def bcdNibbles (bs : List Nat) : List Nat :=
  bs.foldr (fun b acc => b / 16 :: b % 16 :: acc) []

/-- One stored-video entry as decoded by `parse_video_list_response`
(a `StoredVideoEntry` of the spec). -/
structure VideoEntry where
  channel : Nat
  start_time : List Nat
  end_time : List Nat
  alarm_type : Nat
  video_type : Nat
  index : Nat
  deriving Repr, DecidableEq

/-- Decode the 18-octet entry at `offset` (only called with
`offset + 18 ≤ body.length`, mirroring the loop guard). -/
def decodeEntry (body : List Nat) (offset idx : Nat) : VideoEntry :=
  { channel := body.getD offset 0
    start_time := bcdNibbles ((body.drop (offset + 1)).take 6)
    end_time := bcdNibbles ((body.drop (offset + 7)).take 6)
    alarm_type := u32of (body.drop (offset + 13))
    video_type := body.getD (offset + 17) 0
    index := idx }

/-- The `for i in range(video_count)` loop: stop early (`break`) as soon as a
full 18-octet slot no longer fits. -/
def parseEntries (body : List Nat) : Nat → Nat → Nat → List VideoEntry
  | _, _, 0 => []
  | offset, idx, c + 1 =>
    if body.length < offset + 18 then []
    else decodeEntry body offset idx :: parseEntries body (offset + 18) (idx + 1) c

/-- Result dictionary of `parse_video_list_response`; per the source,
`video_count` is the number of entries actually parsed, not the declared
count. -/
structure VideoList where
  video_count : Nat
  videos : List VideoEntry
  deriving Repr, DecidableEq

/-- `JT808Parser.parse_video_list_response`: reads the declared count from the
first two bytes and decodes as many complete 18-octet entries as the body
holds (all slice accesses are guarded, so the `except` branch is dead). -/
def parse_video_list_response (body : List Nat) : Option VideoList :=
  if body.length < 2 then none
  else
    let videos := parseEntries body 2 0 (u16of body)
    some { video_count := videos.length, videos := videos }

/-! ## Stored-video-list reassembly (`server.py`, `DeviceHandler`, 0x1205 arm)

The handler's list-assembly fields (`video_list_count`, `video_list_buffer`,
`video_list_expected_size`, `stored_videos`, `video_list_received`) form the
state below.  The wall-clock fields (`video_list_received_time` and the
10-second `video_list_buffer_timeout`, plus the background checker thread)
only matter when fragments stall for more than 10 s; the machine here models
the prompt-arrival runs in which `elapsed > timeout` is always false, which is
the regime every claim about a completed exchange lives in.  Each element of
the returned ack list is the `reply_id` of one
`build_terminal_response(phone, msg_seq, reply_id, 0)` frame the handler
attempts to send (`0x9205 = MSG_ID_VIDEO_LIST_QUERY`). -/

structure ListState where
  count : Option Nat
  buffer : List Nat
  expected : Option Nat
  storedVideos : List VideoEntry
  listReceived : Bool
  deriving Repr, DecidableEq

/-- The fresh session state from `DeviceHandler.__init__`. -/
def initialListState : ListState :=
  { count := none, buffer := [], expected := none
    storedVideos := [], listReceived := false }

/-- The count-initialisation test applied (twice, identically) by the handler:
a 6-octet body `<count:u16><0x00 0x00 0x00 0x00>` with `0 < count ≤ 1000`. -/
def isCountInit (body : List Nat) : Bool :=
  body.length = 6 && decide (0 < u16of body) && decide (u16of body ≤ 1000) &&
    decide (body.drop 2 = [0, 0, 0, 0])

/-- The handler's heuristic for a complete (non-fragmented) list response:
the body starts with a plausible count and its length is within 10 octets of
the 18-byte-entry size, of the 22-byte-entry size, or is a small zero-count
body (`server.py` lines 649–674). -/
def isPotentialList (body : List Nat) : Bool :=
  if 2 ≤ body.length then
    let c := u16of body
    decide (c ≤ 1000) &&
      (decide (Nat.dist body.length (2 + c * 18) ≤ 10) ||
       decide (Nat.dist body.length (2 + c * 22) ≤ 10) ||
       (decide (body.length < 1000) && decide (c = 0)))
  else false

/-- A 6-octet init body resets the assembly to the new count, stores just the
two count bytes, and acks with reply id 0x9205 (`server.py` lines 496–524;
identically lines 605–638 for a fresh assembly). -/
def initAssemblyState (st : ListState) (c : Nat) (body : List Nat) : ListState :=
  { st with count := some c, buffer := body.take 2, expected := some (2 + c * 18) }

/-- Continuation processing while an assembly is active (`server.py` lines
529–603): strip a duplicated leading count, extend the buffer, and on reaching
the expected size parse, publish `stored_videos`, ack 0x9205 and reset.  The
parse-failure reset branch is kept although `parse_video_list_response` never
fails on the ≥ 2-byte buffer. -/
def contPhase (st : ListState) (body : List Nat) : ListState × List Nat :=
  let c := st.count.getD 0
  let appended := if 2 ≤ body.length ∧ u16of body = c then body.drop 2 else body
  let buf := st.buffer ++ appended
  if st.expected.getD 0 ≤ buf.length then
    match parse_video_list_response buf with
    | some vl =>
        ({ count := none, buffer := [], expected := none
           storedVideos := vl.videos, listReceived := true }, [0x9205])
    | none =>
        ({ st with count := none, buffer := [], expected := none }, [])
  else
    ({ st with buffer := buf }, [])

/-- One 0x1205 message through the handler's list logic (`server.py` lines
427–715), with `q` the legacy `_video_list_query_sent` flag.  Branch order
follows the source: the 6-octet new-count test runs first (falling through to
continuation handling when the count matches the active assembly), then
continuation handling when an assembly is active, then complete-list
detection.  A body that fails every test reaches the *second*
`elif msg_id == MSG_ID_VIDEO_UPLOAD:` arm (line 720) — dead code, since the
first arm already matched — so it changes nothing. -/
def step1205 (st : ListState) (q : Bool) (body : List Nat) : ListState × List Nat :=
  if isCountInit body then
    if st.count = some (u16of body) then contPhase st body
    else (initAssemblyState st (u16of body) body, [0x9205])
  else
    match st.count with
    | some _ => contPhase st body
    | none =>
      if isPotentialList body || (q && decide (body.length < 1000)) then
        match parse_video_list_response body with
        | some vl => ({ st with storedVideos := vl.videos, listReceived := true }, [0x9205])
        | none => (st, [])
      else (st, [])

/-- Feed a sequence of 0x1205 bodies through the handler, concatenating the
acks it sends. -/
def run1205 (st : ListState) (q : Bool) : List (List Nat) → ListState × List Nat
  | [] => (st, [])
  | body :: rest =>
    let s := step1205 st q body
    let r := run1205 s.1 q rest
    (r.1, s.2 ++ r.2)

/-- What a continuation frame contributes to the assembly buffer: its bytes,
with a duplicated leading count (equal to the active count) stripped. -/
def stripCount (c : Nat) (body : List Nat) : List Nat :=
  if 2 ≤ body.length ∧ u16of body = c then body.drop 2 else body

/-! ## Live-video frame reassembly (`server.py` lines 801–893, 1442–1545) -/

/-- The dictionary `parse_realtime_video_data` returns (GPS metadata fields do
not exist on this path; the reassembly logic reads channel, package type,
timestamp and payload).  `timestamp` is the decoded BCD nibble sequence, the
Python `timestamp_str`. -/
structure RTVideo where
  logic_channel : Nat
  data_type : Nat
  package_type : Nat
  timestamp : List Nat
  last_frame_interval : Nat
  last_frame_size : Nat
  video_data : List Nat
  deriving Repr, DecidableEq

/-- `DeviceHandler.parse_realtime_video_data`.  `validate_video_data_format`
only prints; the parse returns `None` exactly when the body is shorter than
the 13-octet fixed prefix, independently of the message id. -/
def parse_realtime_video_data (body : List Nat) : Option RTVideo :=
  if body.length < 13 then none
  else
    some { logic_channel := body.getD 0 0
           data_type := body.getD 1 0
           package_type := body.getD 2 0
           timestamp := bcdNibbles ((body.drop 3).take 6)
           last_frame_interval := u16of (body.drop 9)
           last_frame_size := u16of (body.drop 11)
           video_data := body.drop 13 }

/-- `self.video_frame_buffers`: a `(channel, frame_id)`-keyed Python dict of
packet lists, modelled as an insertion-ordered association list. -/
abbrev FrameBufs := List ((Nat × List Nat) × List (List Nat))

/-- Dict lookup (first matching key). -/
def lookupF (bufs : FrameBufs) (k : Nat × List Nat) : Option (List (List Nat)) :=
  match bufs with
  | [] => none
  | (k', v) :: rest => if k' = k then some v else lookupF rest k

/-- `key in dict`. -/
def containsF (bufs : FrameBufs) (k : Nat × List Nat) : Bool :=
  (lookupF bufs k).isSome

/-- `dict[key] = value`: replace in place, or append a fresh binding. -/
def dictSet (bufs : FrameBufs) (k : Nat × List Nat) (v : List (List Nat)) : FrameBufs :=
  if containsF bufs k then
    bufs.map (fun p => if p.1 = k then (k, v) else p)
  else bufs ++ [(k, v)]

/-- `del dict[key]`. -/
def eraseF (bufs : FrameBufs) (k : Nat × List Nat) : FrameBufs :=
  bufs.filter (fun p => p.1 ≠ k)

/-- One parsed 0x9201-family packet through the reassembly logic
(`server.py` lines 842–886).  Returns the new buffer map and the payloads
pushed to `stream_manager.add_frame` (the Frame Bus) by this packet.  Note the
emission guard `package_type == 2 or (package_type == 0 and len(video_data) > 0)`
publishes a *start* packet's own payload immediately, while the payload also
stays buffered for the chain. -/
def stepFrame (bufs : FrameBufs) (v : RTVideo) : FrameBufs × List (List Nat) :=
  let key := (v.logic_channel, v.timestamp)
  if v.package_type = 0 then
    (dictSet bufs key [v.video_data],
     if v.video_data = [] then [] else [v.video_data])
  else if v.package_type = 1 then
    (match lookupF bufs key with
     | some chunks => dictSet bufs key (chunks ++ [v.video_data])
     | none => dictSet bufs key [v.video_data], [])
  else if v.package_type = 2 then
    match lookupF bufs key with
    | some chunks => (eraseF bufs key, [(chunks ++ [v.video_data]).flatten])
    | none => (bufs, [v.video_data])
  else (bufs, [])

/-- One raw 0x9201 body through parse + reassembly (an unparseable body only
logs). -/
def stepVideoBody (bufs : FrameBufs) (body : List Nat) : FrameBufs × List (List Nat) :=
  match parse_realtime_video_data body with
  | none => (bufs, [])
  | some v => stepFrame bufs v

/-- Feed a sequence of 0x9201 bodies, concatenating the emitted payloads. -/
def runBodies (bufs : FrameBufs) : List (List Nat) → FrameBufs × List (List Nat)
  | [] => (bufs, [])
  | body :: rest =>
    let s := stepVideoBody bufs body
    let r := runBodies s.1 rest
    (r.1, s.2 ++ r.2)

/-- Feed a sequence of 0x9201 bodies each tagged with its arrival time (in
seconds).  The handler consults no clock anywhere on the frame-reassembly path
(`server.py` lines 842–886 contain no `time.time()` call and no expiry scan),
so the tag is necessarily ignored. -/
def runBodiesTimed (bufs : FrameBufs) : List (Nat × List Nat) → FrameBufs × List (List Nat)
  | [] => (bufs, [])
  | (_t, body) :: rest =>
    let s := stepVideoBody bufs body
    let r := runBodiesTimed s.1 rest
    (r.1, s.2 ++ r.2)

/-- A well-formed 0x9201 body: channel, data type, package type, 6 BCD
timestamp octets, zero interval and size words, then the payload. -/
def mkBody (ch dt pt : Nat) (ts6 payload : List Nat) : List Nat :=
  ch :: dt :: pt :: ts6 ++ ([0, 0, 0, 0] ++ payload)

/-! ## Spec-side detection predicate (for claim C9)

Modelled from the spec's words, for comparison with the source-derived
`isPotentialList`/`step1205`: "if no assembly is active and the body starts
with a plausible count (0 ≤ count ≤ 1000) and |body_len − (2 + 18·count)| ≤ 10,
treat as a complete list response." -/
def specListDetect (body : List Nat) : Bool :=
  decide (2 ≤ body.length) && decide (u16of body ≤ 1000) &&
    decide (Nat.dist body.length (2 + 18 * u16of body) ≤ 10)

/-! ## Codec lemmas -/

theorem escape_decode_cons (a : Nat) (xs : List Nat) (h7d : a ≠ 0x7D) :
    escape_decode (a :: xs) = a :: escape_decode xs := by
  cases xs with
  | nil => rfl
  | cons b rest => simp [escape_decode, h7d]

/-- Byte-unstuffing inverts byte-stuffing. -/
theorem escape_decode_encode (xs : List Nat) :
    escape_decode (escape_encode xs) = xs := by
  induction xs with
  | nil => rfl
  | cons a rest ih =>
    by_cases h1 : a = 0x7D
    · subst h1; simp [escape_encode, escape_decode, ih]
    · by_cases h2 : a = 0x7E
      · subst h2; simp [escape_encode, escape_decode, ih]
      · simp only [escape_encode, h1, h2, if_false, List.singleton_append]
        rw [escape_decode_cons a _ h1, ih]

theorem length_le_escape_encode (xs : List Nat) :
    xs.length ≤ (escape_encode xs).length := by
  induction xs with
  | nil => simp [escape_encode]
  | cons a rest ih =>
    by_cases h1 : a = 0x7D <;> by_cases h2 : a = 0x7E <;>
      simp [escape_encode, h1, h2] <;> omega

/-- Parsing a stuffed-and-framed well-formed interior recovers its header
fields and body. -/
theorem parse_message_encoded (md : List Nat) (c : Nat) (h : 12 ≤ md.length) :
    parse_message (0x7E :: (escape_encode (md ++ [c]) ++ [0x7E])) =
      some { msg_id := u16of md
             msg_attr := u16of (md.drop 2)
             phone := ((md.drop 4).take 6).filter (fun b => b < 128)
             msg_seq := u16of (md.drop 10)
             body := md.drop 12 } := by
  have hlen : md.length + 1 ≤ (escape_encode (md ++ [c])).length := by
    have := length_le_escape_encode (md ++ [c])
    simpa using this
  set enc := escape_encode (md ++ [c]) with henc
  have hpkt : (0x7E :: (enc ++ [0x7E])).length = enc.length + 2 := by simp
  have h1 : ¬ (0x7E :: (enc ++ [0x7E])).length < 12 := by omega
  have h2 : (0x7E :: (enc ++ [0x7E])).getD 0 0 = 0x7E := rfl
  have h3 : (0x7E :: (enc ++ [0x7E])).getD ((0x7E :: (enc ++ [0x7E])).length - 1) 0 = 0x7E := by
    rw [hpkt]
    show (enc ++ [0x7E]).getD (enc.length + 2 - 1 - 1) 0 = 0x7E
    rw [List.getD_append_right enc [0x7E] 0 _ (by omega)]
    simp
  have hint : ((0x7E :: (enc ++ [0x7E])).drop 1).dropLast = enc := by
    simp
  have hdec : escape_decode (((0x7E :: (enc ++ [0x7E])).drop 1).dropLast) = md ++ [c] := by
    rw [hint, henc, escape_decode_encode]
  have hmd : (md ++ [c]).dropLast = md := by simp
  rw [parse_message]
  rw [if_neg h1, if_neg (by rw [h2]; omega), if_neg (by rw [h3]; omega)]
  simp only [hdec, hmd, List.length_append, List.length_cons, List.length_nil]
  rw [if_neg (by omega), if_neg (by omega)]

/-- C1: for every message id, 6-character ASCII terminal id, 16-bit sequence
and body (short enough for the 16-bit length field), the frame produced by
`build_response` is parsed back by `parse_message` as exactly one frame whose
message id, terminal id, sequence and body equal the inputs, and whose
unstuffed interior is the header-through-body span followed by its XOR
(`calculate_checksum`) as the trailing checksum octet. -/
theorem build_parse_roundtrip (msg_id msg_seq : Nat) (phone body : List Nat)
    (h1 : msg_id < 65536) (h2 : msg_seq < 65536) (h3 : body.length < 65536)
    (h4 : phone.length = 6) (h5 : ∀ b ∈ phone, b < 128) :
    ∃ pkt, build_response msg_id phone msg_seq body = some pkt ∧
      parse_message pkt =
        some { msg_id := msg_id, msg_attr := body.length, phone := phone
               msg_seq := msg_seq, body := body } ∧
      escape_decode ((pkt.drop 1).dropLast) =
        headerBody msg_id phone msg_seq body ++
          [calculate_checksum (headerBody msg_id phone msg_seq body)] := by
  obtain ⟨p0, p1, p2, p3, p4, p5, rfl⟩ :
      ∃ a b c d e f, phone = [a, b, c, d, e, f] := by
    rcases phone with _ | ⟨p0, _ | ⟨p1, _ | ⟨p2, _ | ⟨p3, _ | ⟨p4, _ | ⟨p5, _ | ⟨p6, r⟩⟩⟩⟩⟩⟩⟩ <;>
      first
        | exact ⟨p0, p1, p2, p3, p4, p5, rfl⟩
        | (exfalso; simp at h4)
  have hp0 : p0 < 128 := h5 p0 (by simp)
  have hp1 : p1 < 128 := h5 p1 (by simp)
  have hp2 : p2 < 128 := h5 p2 (by simp)
  have hp3 : p3 < 128 := h5 p3 (by simp)
  have hp4 : p4 < 128 := h5 p4 (by simp)
  have hp5 : p5 < 128 := h5 p5 (by simp)
  set md := headerBody msg_id [p0, p1, p2, p3, p4, p5] msg_seq body with hmd
  have hmdeq : md = msg_id / 256 :: msg_id % 256 :: body.length / 256 ::
      body.length % 256 :: p0 :: p1 :: p2 :: p3 :: p4 :: p5 ::
      msg_seq / 256 :: msg_seq % 256 :: body := by
    simp [hmd, headerBody, pack16]
  have hmdlen : 12 ≤ md.length := by rw [hmdeq]; simp
  refine ⟨0x7E :: (escape_encode (md ++ [calculate_checksum md]) ++ [0x7E]), ?_, ?_, ?_⟩
  · rw [build_response, if_pos ⟨h1, h2, h3, h5⟩]
    simp only [hmd, headerBody, List.append_assoc]
  · rw [parse_message_encoded md (calculate_checksum md) hmdlen]
    rw [hmdeq]
    have e1 : 256 * (msg_id / 256) + msg_id % 256 = msg_id := by omega
    have e2 : 256 * (body.length / 256) + body.length % 256 = body.length := by omega
    have e3 : 256 * (msg_seq / 256) + msg_seq % 256 = msg_seq := by omega
    simp [u16of, List.getD_cons_zero, List.getD_cons_succ, List.filter,
      e1, e2, e3, hp0, hp1, hp2, hp3, hp4, hp5]
  · have hint : ((0x7E :: (escape_encode (md ++ [calculate_checksum md]) ++ [0x7E])).drop 1).dropLast
        = escape_encode (md ++ [calculate_checksum md]) := by simp
    rw [hint, escape_decode_encode]

/-- C1 witness: a concrete round-trip (heartbeat-response id, terminal id
"012345", sequence 42, a body containing both escape-sensitive octets). -/
theorem build_parse_roundtrip_witness :
    (0x8002 < 65536 ∧ 42 < 65536 ∧
        ([0x7E, 0x7D, 0x05] : List Nat).length < 65536 ∧
        ([48, 49, 50, 51, 52, 53] : List Nat).length = 6 ∧
        (∀ b ∈ ([48, 49, 50, 51, 52, 53] : List Nat), b < 128)) ∧
      ∃ pkt, build_response 0x8002 [48, 49, 50, 51, 52, 53] 42 [0x7E, 0x7D, 0x05] = some pkt ∧
        parse_message pkt =
          some { msg_id := 0x8002, msg_attr := 3, phone := [48, 49, 50, 51, 52, 53]
                 msg_seq := 42, body := [0x7E, 0x7D, 0x05] } ∧
        escape_decode ((pkt.drop 1).dropLast) =
          headerBody 0x8002 [48, 49, 50, 51, 52, 53] 42 [0x7E, 0x7D, 0x05] ++
            [calculate_checksum (headerBody 0x8002 [48, 49, 50, 51, 52, 53] 42 [0x7E, 0x7D, 0x05])] :=
  ⟨⟨by decide, by decide, by decide, by decide, by decide⟩,
    build_parse_roundtrip 0x8002 42 [48, 49, 50, 51, 52, 53] [0x7E, 0x7D, 0x05]
      (by decide) (by decide) (by decide) (by decide) (by decide)⟩

/-- C5: a framed input whose unstuffed interior carries a trailing checksum
octet different from the XOR of the preceding octets is not dropped:
`parse_message` still returns the parsed message (the mismatch only produces a
log line), so the engine dispatches it.  The structural hypotheses are those
of any frame with a complete 12-byte header; the conclusion does not depend on
the mismatch hypothesis, which is the leniency being claimed. -/
theorem bcc_mismatch_still_parsed (data : List Nat) (h12 : 12 ≤ data.length)
    (hh : data.getD 0 0 = 0x7E) (hl : data.getD (data.length - 1) 0 = 0x7E)
    (hlen : 13 ≤ (escape_decode ((data.drop 1).dropLast)).length)
    (hbad : (escape_decode ((data.drop 1).dropLast)).getLastD 0 ≠
        calculate_checksum ((escape_decode ((data.drop 1).dropLast)).dropLast)) :
    parse_message data =
      some { msg_id := u16of ((escape_decode ((data.drop 1).dropLast)).dropLast)
             msg_attr := u16of (((escape_decode ((data.drop 1).dropLast)).dropLast).drop 2)
             phone := ((((escape_decode ((data.drop 1).dropLast)).dropLast).drop 4).take 6).filter
               (fun b => b < 128)
             msg_seq := u16of (((escape_decode ((data.drop 1).dropLast)).dropLast).drop 10)
             body := ((escape_decode ((data.drop 1).dropLast)).dropLast).drop 12 } := by
  have hmd : 12 ≤ ((escape_decode ((data.drop 1).dropLast)).dropLast).length := by
    rw [List.length_dropLast]; omega
  rw [parse_message]
  rw [if_neg (by omega), if_neg (by rw [hh]; exact fun h => h rfl),
    if_neg (by rw [hl]; exact fun h => h rfl)]
  simp only []
  rw [if_neg (by omega), if_neg (by omega)]

/-- C5 witness: a concrete heartbeat frame whose trailing BCC octet is 40
while the XOR of the header bytes is 41; it still parses. -/
theorem bcc_mismatch_still_parsed_witness :
    (12 ≤ ([0x7E, 0, 2, 0, 0, 48, 49, 50, 51, 52, 53, 0, 42, 40, 0x7E] : List Nat).length ∧
      ([0x7E, 0, 2, 0, 0, 48, 49, 50, 51, 52, 53, 0, 42, 40, 0x7E] : List Nat).getD 0 0 = 0x7E ∧
      ([0x7E, 0, 2, 0, 0, 48, 49, 50, 51, 52, 53, 0, 42, 40, 0x7E] : List Nat).getD
        (([0x7E, 0, 2, 0, 0, 48, 49, 50, 51, 52, 53, 0, 42, 40, 0x7E] : List Nat).length - 1) 0 = 0x7E ∧
      13 ≤ (escape_decode ((([0x7E, 0, 2, 0, 0, 48, 49, 50, 51, 52, 53, 0, 42, 40, 0x7E] : List Nat).drop 1).dropLast)).length ∧
      (escape_decode ((([0x7E, 0, 2, 0, 0, 48, 49, 50, 51, 52, 53, 0, 42, 40, 0x7E] : List Nat).drop 1).dropLast)).getLastD 0 ≠
        calculate_checksum ((escape_decode ((([0x7E, 0, 2, 0, 0, 48, 49, 50, 51, 52, 53, 0, 42, 40, 0x7E] : List Nat).drop 1).dropLast)).dropLast)) ∧
    parse_message [0x7E, 0, 2, 0, 0, 48, 49, 50, 51, 52, 53, 0, 42, 40, 0x7E] =
      some { msg_id := 2, msg_attr := 0, phone := [48, 49, 50, 51, 52, 53]
             msg_seq := 42, body := [] } := by
  constructor
  · exact ⟨by decide, by decide, by decide, by decide, by decide⟩
  · have h := bcc_mismatch_still_parsed
      [0x7E, 0, 2, 0, 0, 48, 49, 50, 51, 52, 53, 0, 42, 40, 0x7E]
      (by decide) (by decide) (by decide) (by decide) (by decide)
    rw [h]; rfl

/-- C6 counterexample: the claim says any non-fragmented body longer than
1023 octets is rejected before building, but `build_response` frames a
1024-octet body without complaint (`validate_message_format` never checks a
length bound and its warnings never block the build). -/
theorem build_accepts_long_body :
    1023 < (List.replicate 1024 (0 : Nat)).length ∧
      (build_response 0x8103 [48, 49, 50, 51, 52, 53] 0 (List.replicate 1024 0)).isSome = true := by
  constructor
  · simp
  · rfl

/-- C6 amended: `build_response` enforces no 1023-octet body bound at all;
it produces a framed message for every ASCII phone and every body shorter
than 65536 octets — the only limit is `struct.pack('>H', len(body))`. -/
theorem build_no_length_bound (msg_id msg_seq : Nat) (phone body : List Nat)
    (h1 : msg_id < 65536) (h2 : msg_seq < 65536) (h3 : body.length < 65536)
    (h5 : ∀ b ∈ phone, b < 128) :
    (build_response msg_id phone msg_seq body).isSome = true := by
  rw [build_response, if_pos ⟨h1, h2, h3, h5⟩]
  rfl

/-- C6 amended witness: a concrete 2048-octet body builds fine. -/
theorem build_no_length_bound_witness :
    (0x9101 < 65536 ∧ 7 < 65536 ∧ (List.replicate 2048 (5 : Nat)).length < 65536 ∧
        (∀ b ∈ ([48, 49, 50, 51, 52, 53] : List Nat), b < 128)) ∧
      (build_response 0x9101 [48, 49, 50, 51, 52, 53] 7 (List.replicate 2048 5)).isSome = true :=
  ⟨⟨by decide, by decide, by simp, by decide⟩,
    build_no_length_bound 0x9101 7 [48, 49, 50, 51, 52, 53] (List.replicate 2048 5)
      (by decide) (by decide) (by simp) (by decide)⟩

/-! ## Stored-video-list parser lemmas (claim C10) -/

/-- The entry loop decodes exactly as many entries as fit, capped by the
declared count. -/
theorem parseEntries_eq (body : List Nat) (c : Nat) : ∀ offset idx : Nat,
    parseEntries body offset idx c =
      (List.range (min c ((body.length - offset) / 18))).map
        (fun i => decodeEntry body (offset + 18 * i) (idx + i)) := by
  induction c with
  | zero => intro offset idx; simp [parseEntries]
  | succ n ih =>
    intro offset idx
    by_cases h : body.length < offset + 18
    · have hz : (body.length - offset) / 18 = 0 := Nat.div_eq_of_lt (by omega)
      simp [parseEntries, h, hz]
    · have h18 : 18 ≤ body.length - offset := by omega
      have hdiv : (body.length - offset) / 18 = (body.length - (offset + 18)) / 18 + 1 := by
        omega
      have hmin : min (n + 1) ((body.length - (offset + 18)) / 18 + 1)
          = min n ((body.length - (offset + 18)) / 18) + 1 := Nat.succ_min_succ _ _
      simp only [parseEntries, if_neg h, ih (offset + 18) (idx + 1), hdiv, hmin,
        List.range_succ_eq_map, List.map_cons, List.map_map]
      congr 1
      apply List.map_congr_left
      intro a _
      simp only [Function.comp_apply]
      congr 1 <;> omega

/-- C10: `parse_video_list_response` never returns more entries than the
bytes provide: when the remainder after the 2-byte count holds only
`k = (len - 2) / 18 < N` complete 18-octet entries, it returns exactly the
first `k` entries, in order, each decoded from its own 18-octet slot. -/
theorem video_list_truncates_to_available (body : List Nat)
    (h2 : 2 ≤ body.length) (hk : (body.length - 2) / 18 < u16of body) :
    parse_video_list_response body =
      some { video_count := (body.length - 2) / 18
             videos := (List.range ((body.length - 2) / 18)).map
               (fun i => decodeEntry body (2 + 18 * i) i) } := by
  rw [parse_video_list_response, if_neg (by omega)]
  simp only [parseEntries_eq body (u16of body) 2 0]
  have hmin : min (u16of body) ((body.length - 2) / 18) = (body.length - 2) / 18 :=
    Nat.min_eq_right (by omega)
  rw [hmin]
  simp

/-- C10 witness: a body declaring 2 entries but carrying only one complete
18-octet slot yields exactly one entry. -/
theorem video_list_truncates_witness :
    (2 ≤ (([0, 2] ++ (List.range 18).map (fun j => j + 1)) : List Nat).length ∧
      ((([0, 2] ++ (List.range 18).map (fun j => j + 1)) : List Nat).length - 2) / 18 <
        u16of ([0, 2] ++ (List.range 18).map (fun j => j + 1))) ∧
    parse_video_list_response ([0, 2] ++ (List.range 18).map (fun j => j + 1)) =
      some { video_count := ((([0, 2] ++ (List.range 18).map (fun j => j + 1)) : List Nat).length - 2) / 18
             videos := (List.range (((([0, 2] ++ (List.range 18).map (fun j => j + 1)) : List Nat).length - 2) / 18)).map
               (fun i => decodeEntry ([0, 2] ++ (List.range 18).map (fun j => j + 1)) (2 + 18 * i) i) } :=
  ⟨⟨by decide, by decide⟩,
    video_list_truncates_to_available ([0, 2] ++ (List.range 18).map (fun j => j + 1))
      (by decide) (by decide)⟩

/-! ## Live-video reassembly lemmas (claims C2, C7, C8) -/

theorem lookupF_map_set (bufs : FrameBufs) (k : Nat × List Nat)
    (v : List (List Nat)) (k' : Nat × List Nat) (hne : k' ≠ k) :
    lookupF (bufs.map (fun p => if p.1 = k then (k, v) else p)) k' = lookupF bufs k' := by
  induction bufs with
  | nil => rfl
  | cons p rest ih =>
    obtain ⟨pk, pv⟩ := p
    simp only [List.map_cons]
    by_cases hp : (pk, pv).1 = k
    · rw [if_pos hp]
      simp only [lookupF]
      have hpk : pk ≠ k' := fun h => hne (h.symm.trans hp)
      rw [if_neg (fun h : k = k' => hne h.symm), if_neg hpk, ih]
    · rw [if_neg hp]
      simp only [lookupF]
      by_cases hpk : pk = k'
      · rw [if_pos hpk, if_pos hpk]
      · rw [if_neg hpk, if_neg hpk, ih]

theorem lookupF_map_set_self (bufs : FrameBufs) (k : Nat × List Nat)
    (v : List (List Nat)) (h : containsF bufs k = true) :
    lookupF (bufs.map (fun p => if p.1 = k then (k, v) else p)) k = some v := by
  induction bufs with
  | nil => simp [containsF, lookupF] at h
  | cons p rest ih =>
    obtain ⟨pk, pv⟩ := p
    simp only [List.map_cons]
    by_cases hp : (pk, pv).1 = k
    · rw [if_pos hp]
      simp [lookupF]
    · rw [if_neg hp]
      simp only [lookupF]
      rw [if_neg hp]
      apply ih
      simpa [containsF, lookupF, hp] using h

theorem lookupF_append_single_self (bufs : FrameBufs) (k : Nat × List Nat)
    (v : List (List Nat)) (h : lookupF bufs k = none) :
    lookupF (bufs ++ [(k, v)]) k = some v := by
  induction bufs with
  | nil => simp [lookupF]
  | cons p rest ih =>
    obtain ⟨pk, pv⟩ := p
    simp only [lookupF] at h
    simp only [List.cons_append, lookupF]
    by_cases hp : pk = k
    · rw [if_pos hp] at h
      exact absurd h (by simp)
    · rw [if_neg hp] at h
      rw [if_neg hp]
      exact ih h

theorem lookupF_dictSet_self (bufs : FrameBufs) (k : Nat × List Nat)
    (v : List (List Nat)) : lookupF (dictSet bufs k v) k = some v := by
  rw [dictSet]
  by_cases h : containsF bufs k = true
  · rw [if_pos h]
    exact lookupF_map_set_self bufs k v h
  · rw [if_neg h]
    apply lookupF_append_single_self
    cases hl : lookupF bufs k with
    | none => rfl
    | some w => exact absurd (by simp [containsF, hl]) h

theorem lookupF_append_of_ne (bufs : FrameBufs) (k : Nat × List Nat)
    (v : List (List Nat)) (k' : Nat × List Nat) (hne : k' ≠ k) :
    lookupF (bufs ++ [(k, v)]) k' = lookupF bufs k' := by
  induction bufs with
  | nil =>
    simp only [List.nil_append, lookupF]
    rw [if_neg (fun h : k = k' => hne h.symm)]
  | cons p rest ih =>
    obtain ⟨pk, pv⟩ := p
    simp only [List.cons_append, lookupF]
    by_cases hp : pk = k'
    · rw [if_pos hp, if_pos hp]
    · rw [if_neg hp, if_neg hp]
      exact ih

/-- Parsing a well-formed 0x9201 body recovers its fields. -/
theorem parse_mkBody (ch dt pt : Nat) (ts6 payload : List Nat) (hts : ts6.length = 6) :
    parse_realtime_video_data (mkBody ch dt pt ts6 payload) =
      some { logic_channel := ch, data_type := dt, package_type := pt
             timestamp := bcdNibbles ts6, last_frame_interval := 0
             last_frame_size := 0, video_data := payload } := by
  obtain ⟨t0, t1, t2, t3, t4, t5, rfl⟩ : ∃ a b c d e f, ts6 = [a, b, c, d, e, f] := by
    rcases ts6 with _ | ⟨t0, _ | ⟨t1, _ | ⟨t2, _ | ⟨t3, _ | ⟨t4, _ | ⟨t5, _ | ⟨t6, r⟩⟩⟩⟩⟩⟩⟩ <;>
      first
        | exact ⟨t0, t1, t2, t3, t4, t5, rfl⟩
        | (exfalso; simp at hts)
  rw [parse_realtime_video_data, if_neg (by simp [mkBody])]
  simp [mkBody, u16of, List.getD_cons_zero, List.getD_cons_succ]

/-- Processing middles then the end packet of a live chain: the end packet
emits one event carrying the buffered chunks, the middle payloads and the end
payload, concatenated in arrival order. -/
theorem run_mid_end (ch dtE : Nat) (ts6 Pend : List Nat) (hts : ts6.length = 6)
    (mids : List (Nat × List Nat)) :
    ∀ (bufs : FrameBufs) (chunks : List (List Nat)),
    lookupF bufs (ch, bcdNibbles ts6) = some chunks →
    (runBodies bufs (mids.map (fun m => mkBody ch m.1 1 ts6 m.2) ++
        [mkBody ch dtE 2 ts6 Pend])).2
      = [chunks.flatten ++ (mids.map Prod.snd).flatten ++ Pend] := by
  induction mids with
  | nil =>
    intro bufs chunks hlk
    simp [runBodies, stepVideoBody, parse_mkBody ch dtE 2 ts6 Pend hts, stepFrame, hlk]
  | cons m ms ih =>
    intro bufs chunks hlk
    have hstep := ih (dictSet bufs (ch, bcdNibbles ts6) (chunks ++ [m.2]))
      (chunks ++ [m.2]) (lookupF_dictSet_self _ _ _)
    simp [runBodies, stepVideoBody, parse_mkBody ch m.1 1 ts6 m.2 hts, stepFrame,
      hlk, hstep]

/-- C2 counterexample: a start/middle/end fragment chain sharing
`(channel, timestamp)` with payloads `[1]`, `[2]`, `[3]` produces *two*
Frame Bus events — the emission guard
`package_type == 2 or (package_type == 0 and len(video_data) > 0)` publishes
the start payload immediately as well — refuting "exactly one event". -/
theorem live_reassembly_two_events :
    (runBodies [] [mkBody 1 0 0 [34, 1, 2, 3, 4, 5] [1],
                   mkBody 1 0 1 [34, 1, 2, 3, 4, 5] [2],
                   mkBody 1 0 2 [34, 1, 2, 3, 4, 5] [3]]).2 = [[1], [1, 2, 3]] ∧
    ((runBodies [] [mkBody 1 0 0 [34, 1, 2, 3, 4, 5] [1],
                    mkBody 1 0 1 [34, 1, 2, 3, 4, 5] [2],
                    mkBody 1 0 2 [34, 1, 2, 3, 4, 5] [3]]).2).length ≠ 1 := by
  constructor <;> decide

/-- C2 amended: for one start, any middles and one end sharing
`(channel, timestamp)` on a fresh chain, the end fragment emits exactly one
event whose payload is the concatenation of all fragment payloads in arrival
order; additionally the start fragment itself is published immediately
whenever its payload is non-empty. -/
theorem live_reassembly_emits_concat (ch dt0 dtE : Nat) (ts6 P0 Pend : List Nat)
    (mids : List (Nat × List Nat)) (bufs : FrameBufs) (hts : ts6.length = 6) :
    (runBodies bufs (mkBody ch dt0 0 ts6 P0 ::
        (mids.map (fun m => mkBody ch m.1 1 ts6 m.2) ++ [mkBody ch dtE 2 ts6 Pend]))).2
      = (if P0 = [] then [] else [P0]) ++
          [P0 ++ (mids.map Prod.snd).flatten ++ Pend] := by
  have hstep := run_mid_end ch dtE ts6 Pend hts mids
    (dictSet bufs (ch, bcdNibbles ts6) [P0]) [P0] (lookupF_dictSet_self _ _ _)
  simp [runBodies, stepVideoBody, parse_mkBody ch dt0 0 ts6 P0 hts, stepFrame, hstep]

/-- C2 amended witness at a concrete chain with non-empty start payload. -/
theorem live_reassembly_emits_concat_witness :
    ([34, 1, 2, 3, 4, 5] : List Nat).length = 6 ∧
    (runBodies [] (mkBody 1 0 0 [34, 1, 2, 3, 4, 5] [7] ::
        (([((0 : Nat), [8])] : List (Nat × List Nat)).map
            (fun m => mkBody 1 m.1 1 [34, 1, 2, 3, 4, 5] m.2) ++
          [mkBody 1 0 2 [34, 1, 2, 3, 4, 5] [9]]))).2
      = (if ([7] : List Nat) = [] then [] else [[7]]) ++
          [[7] ++ (([((0 : Nat), [8])] : List (Nat × List Nat)).map Prod.snd).flatten ++ [9]] :=
  ⟨by decide,
    live_reassembly_emits_concat 1 0 0 [34, 1, 2, 3, 4, 5] [7] [9]
      [((0 : Nat), [8])] [] (by decide)⟩

/-- C7 counterexample: a chain started at t = 0 that receives nothing until a
lone end fragment at t = 100 (idle far beyond 5 s) is still in
`video_frame_buffers` after the start, and the late end fragment still
produces a Frame Bus emission — no timeout discard exists. -/
theorem stale_chain_still_emits :
    (lookupF (runBodiesTimed [] [(0, mkBody 1 0 0 [34, 1, 2, 3, 4, 5] [])]).1
        (1, bcdNibbles [34, 1, 2, 3, 4, 5])).isSome = true ∧
    (runBodiesTimed [] [(0, mkBody 1 0 0 [34, 1, 2, 3, 4, 5] []),
                        (100, mkBody 1 0 2 [34, 1, 2, 3, 4, 5] [9])]).2 = [[9]] := by
  constructor <;> decide

/-- C7 amended: live-frame reassembly is completely independent of arrival
times — the handler consults no clock on this path, so no chain is ever
discarded for inactivity; a chain idles indefinitely and still emits on its
end fragment. -/
theorem frame_reassembly_time_independent (bufs : FrameBufs)
    (run : List (Nat × List Nat)) :
    runBodiesTimed bufs run = runBodies bufs (run.map Prod.snd) := by
  induction run generalizing bufs with
  | nil => rfl
  | cons p rest ih => simp [runBodiesTimed, runBodies, ih]

/-- C8 counterexample: 33 start fragments on 33 distinct channels leave 33
live chains in one session's `video_frame_buffers` — there is no 32-chain cap
and no eviction. -/
theorem thirty_three_chains :
    32 < (runBodies []
        ((List.range 33).map (fun i => mkBody i 0 0 [34, 1, 2, 3, 4, 5] []))).1.length := by
  decide

/-- Start fragments with pairwise-distinct fresh keys each add a chain. -/
theorem runBodies_starts_length (ts6 : List Nat) (hts : ts6.length = 6) :
    ∀ (ks : List Nat) (bufs : FrameBufs),
    (∀ i ∈ ks, lookupF bufs (i, bcdNibbles ts6) = none) → ks.Nodup →
    (runBodies bufs (ks.map (fun i => mkBody i 0 0 ts6 []))).1.length
      = bufs.length + ks.length := by
  intro ks
  induction ks with
  | nil => intro bufs _ _; simp [runBodies]
  | cons k rest ih =>
    intro bufs hfresh hnodup
    have hk : lookupF bufs (k, bcdNibbles ts6) = none := hfresh k (by simp)
    have hset : dictSet bufs (k, bcdNibbles ts6) [[]]
        = bufs ++ [((k, bcdNibbles ts6), [[]])] := by
      rw [dictSet, if_neg (by simp [containsF, hk])]
    have hfresh' : ∀ i ∈ rest, lookupF (bufs ++ [((k, bcdNibbles ts6), [[]])])
        (i, bcdNibbles ts6) = none := by
      intro i hi
      have hne : ((i : Nat), bcdNibbles ts6) ≠ ((k, bcdNibbles ts6)) := by
        intro he
        have : i = k := congrArg Prod.fst he
        exact (List.nodup_cons.mp hnodup).1 (this ▸ hi)
      rw [lookupF_append_of_ne bufs _ _ _ hne]
      exact hfresh i (by simp [hi])
    have hrec := ih (bufs ++ [((k, bcdNibbles ts6), [[]])]) hfresh'
      (List.nodup_cons.mp hnodup).2
    simp [runBodies, stepVideoBody, parse_mkBody k 0 0 ts6 [] hts, stepFrame,
      hset, hrec]
    omega

/-- C8 amended: `video_frame_buffers` is unbounded — `n` start fragments on
`n` distinct channels yield exactly `n` live chains, for every `n`; chains
are only removed when their end fragment arrives. -/
theorem chains_unbounded (n : Nat) :
    (runBodies []
        ((List.range n).map (fun i => mkBody i 0 0 [34, 1, 2, 3, 4, 5] []))).1.length = n := by
  have h := runBodies_starts_length [34, 1, 2, 3, 4, 5] (by decide) (List.range n) []
    (fun i _ => rfl) (List.nodup_range n)
  simpa using h

/-! ## List-assembly lemmas (claims C3, C4, C9) -/

theorem u16of_cons (a b : Nat) (rest : List Nat) :
    u16of (a :: b :: rest) = 256 * a + b := by
  simp [u16of, List.getD_cons_zero, List.getD_cons_succ]

/-- A canonical count-initialisation body passes `isCountInit`. -/
theorem isCountInit_init (c : Nat) (h1 : 0 < c) (h2 : c ≤ 1000) :
    isCountInit [c / 256, c % 256, 0, 0, 0, 0] = true := by
  have hu : u16of [c / 256, c % 256, 0, 0, 0, 0] = c := by
    rw [u16of_cons]; omega
  simp [isCountInit, hu, h1, h2]

/-- While an assembly with the right count is active, every non-superseding
frame is handled by the continuation logic. -/
theorem step1205_contPhase (st : ListState) (q : Bool) (f : List Nat) (c : Nat)
    (hc : st.count = some c) (hni : isCountInit f = true → u16of f = c) :
    step1205 st q f = contPhase st f := by
  rw [step1205]
  by_cases hb : isCountInit f = true
  · rw [if_pos hb, if_pos (by rw [hc, hni hb])]
  · rw [if_neg hb, hc]

/-- One-step unfolding of `run1205`. -/
theorem run1205_cons (st : ListState) (q : Bool) (body : List Nat)
    (rest : List (List Nat)) :
    run1205 st q (body :: rest)
      = ((run1205 (step1205 st q body).1 q rest).1,
         (step1205 st q body).2 ++ (run1205 (step1205 st q body).1 q rest).2) := rfl

/-- Continuation that does not yet reach the expected size only grows the
buffer. -/
theorem contPhase_incomplete (count : Nat) (d f : List Nat)
    (sv : List VideoEntry) (lr : Bool)
    (hlt : (d ++ stripCount count f).length < 18 * count) :
    contPhase { count := some count, buffer := count / 256 :: count % 256 :: d
                expected := some (2 + count * 18), storedVideos := sv
                listReceived := lr } f
      = ({ count := some count
           buffer := count / 256 :: count % 256 :: (d ++ stripCount count f)
           expected := some (2 + count * 18), storedVideos := sv
           listReceived := lr }, []) := by
  rw [List.length_append] at hlt
  rw [contPhase]
  simp only [Option.getD_some, List.cons_append]
  rw [show (if 2 ≤ f.length ∧ u16of f = count then f.drop 2 else f)
      = stripCount count f from rfl]
  rw [if_neg (by simp only [List.length_cons, List.length_append]; omega)]

/-- Continuation that reaches exactly the expected size parses the buffer,
publishes the entries and acks 0x9205. -/
theorem contPhase_complete (count : Nat) (d f : List Nat)
    (sv : List VideoEntry) (lr : Bool)
    (heq : (d ++ stripCount count f).length = 18 * count) :
    contPhase { count := some count, buffer := count / 256 :: count % 256 :: d
                expected := some (2 + count * 18), storedVideos := sv
                listReceived := lr } f
      = ({ count := none, buffer := [], expected := none
           storedVideos := parseEntries
             (count / 256 :: count % 256 :: (d ++ stripCount count f)) 2 0 count
           listReceived := true }, [0x9205]) := by
  have heq' : d.length + (stripCount count f).length = 18 * count := by
    rw [List.length_append] at heq
    exact heq
  rw [contPhase]
  simp only [Option.getD_some, List.cons_append]
  rw [show (if 2 ≤ f.length ∧ u16of f = count then f.drop 2 else f)
      = stripCount count f from rfl]
  rw [if_pos (by simp only [List.length_cons, List.length_append]; omega)]
  have hu : u16of (count / 256 :: count % 256 :: (d ++ stripCount count f)) = count := by
    rw [u16of_cons]; omega
  rw [parse_video_list_response, if_neg (by simp), hu]

/-- Running an active assembly through continuation frames that complete it
exactly at the last frame: the entries are published once and one 0x9205 ack
is sent at completion. -/
theorem run_cont_complete (count : Nat) (cont : List (List Nat)) :
    ∀ (d : List Nat) (sv : List VideoEntry) (lr : Bool) (q : Bool),
    (∀ f ∈ cont, isCountInit f = true → u16of f = count) →
    d.length + ((cont.map (stripCount count)).flatten).length = 18 * count →
    (∀ n < cont.length,
      d.length + (((cont.take n).map (stripCount count)).flatten).length < 18 * count) →
    cont ≠ [] →
    run1205 { count := some count, buffer := count / 256 :: count % 256 :: d
              expected := some (2 + count * 18), storedVideos := sv
              listReceived := lr } q cont
      = ({ count := none, buffer := [], expected := none
           storedVideos := parseEntries
             (count / 256 :: count % 256 :: (d ++ (cont.map (stripCount count)).flatten)) 2 0 count
           listReceived := true }, [0x9205]) := by
  induction cont with
  | nil => intro d sv lr q _ _ _ hne; exact absurd rfl hne
  | cons f fs ih =>
    intro d sv lr q hns hsum hpre hne
    have hstep := step1205_contPhase
      { count := some count, buffer := count / 256 :: count % 256 :: d
        expected := some (2 + count * 18), storedVideos := sv, listReceived := lr }
      q f count rfl (hns f (by simp))
    rw [run1205_cons, hstep]
    cases fs with
    | nil =>
      have heq : (d ++ stripCount count f).length = 18 * count := by
        simp only [List.map_cons, List.map_nil, List.flatten_cons, List.flatten_nil,
          List.append_nil] at hsum
        simp only [List.length_append]
        omega
      rw [contPhase_complete count d f sv lr heq]
      simp [run1205]
    | cons f2 fs2 =>
      have hlt : (d ++ stripCount count f).length < 18 * count := by
        have h1 := hpre 1 (by simp)
        simp only [List.take_succ_cons, List.take_zero, List.map_cons, List.map_nil,
          List.flatten_cons, List.flatten_nil, List.append_nil] at h1
        simp only [List.length_append]
        omega
      have hrec := ih (d ++ stripCount count f) sv lr q
        (fun g hg => hns g (by simp [hg]))
        (by
          simp only [List.map_cons, List.flatten_cons, List.length_append] at hsum ⊢
          omega)
        (by
          intro n hn
          have h1 := hpre (n + 1) (by simpa using Nat.succ_lt_succ hn)
          simp only [List.take_succ_cons, List.map_cons, List.flatten_cons,
            List.length_append] at h1 ⊢
          omega)
        (by simp)
      rw [contPhase_incomplete count d f sv lr hlt, hrec]
      simp [List.append_assoc]

/-- A fresh session receiving a canonical count-initialisation body opens an
assembly and acks 0x9205. -/
theorem step1205_init_fresh (c : Nat) (h1 : 0 < c) (h2 : c ≤ 1000) (q : Bool)
    (st : ListState) (hc : st.count = none) :
    step1205 st q [c / 256, c % 256, 0, 0, 0, 0]
      = (initAssemblyState st c [c / 256, c % 256, 0, 0, 0, 0], [0x9205]) := by
  have hu : u16of [c / 256, c % 256, 0, 0, 0, 0] = c := by
    rw [u16of_cons]; omega
  rw [step1205, if_pos (isCountInit_init c h1 h2), if_neg (by rw [hc, hu]; simp), hu]

/-- The complete fragmented exchange: count-initialisation frame followed by
continuations summing (after duplicate-count stripping) to `18·count` bytes,
completing exactly at the last frame. -/
theorem run1205_full_exchange (count : Nat) (cont : List (List Nat))
    (h1 : 0 < count) (h2 : count ≤ 1000)
    (hns : ∀ f ∈ cont, isCountInit f = true → u16of f = count)
    (hsum : ((cont.map (stripCount count)).flatten).length = 18 * count)
    (hpre : ∀ n < cont.length,
      (((cont.take n).map (stripCount count)).flatten).length < 18 * count) :
    run1205 initialListState false ([count / 256, count % 256, 0, 0, 0, 0] :: cont)
      = ({ count := none, buffer := [], expected := none
           storedVideos := parseEntries
             (count / 256 :: count % 256 :: (cont.map (stripCount count)).flatten) 2 0 count
           listReceived := true }, [0x9205, 0x9205]) := by
  have hne : cont ≠ [] := by
    intro h
    rw [h] at hsum
    simp at hsum
    omega
  have hinit := step1205_init_fresh count h1 h2 false initialListState rfl
  have hst : initAssemblyState initialListState count [count / 256, count % 256, 0, 0, 0, 0]
      = { count := some count, buffer := count / 256 :: count % 256 :: ([] : List Nat)
          expected := some (2 + count * 18), storedVideos := ([] : List VideoEntry)
          listReceived := false } := by
    simp [initAssemblyState, initialListState]
  have hrun := run_cont_complete count cont [] [] false false hns
    (by simpa using hsum) (by simpa using hpre) hne
  rw [run1205_cons, hinit]
  simp only [hst, hrun]
  simp

/-- C3: a count-initialisation 0x1205 body `<count:u16><0,0,0,0>` with
`0 < count ≤ 1000` followed by continuation frames whose bytes — after
stripping a duplicated leading count equal to the current count — sum to
`18·count` (reaching the total exactly at the last frame, with no differing
6-octet init-shaped frame superseding the assembly) leave exactly `count`
`StoredVideoEntry` records in the session's `stored_videos`, in order, the
`i`-th decoded from the `i`-th 18-octet slot of the reassembled buffer. -/
theorem fragmented_list_stores_count_entries (count : Nat) (cont : List (List Nat))
    (h1 : 0 < count) (h2 : count ≤ 1000)
    (hns : ∀ f ∈ cont, isCountInit f = true → u16of f = count)
    (hsum : ((cont.map (stripCount count)).flatten).length = 18 * count)
    (hpre : ∀ n < cont.length,
      (((cont.take n).map (stripCount count)).flatten).length < 18 * count) :
    (run1205 initialListState false
        ([count / 256, count % 256, 0, 0, 0, 0] :: cont)).1.storedVideos
      = (List.range count).map (fun i =>
          decodeEntry (count / 256 :: count % 256 :: (cont.map (stripCount count)).flatten)
            (2 + 18 * i) i) ∧
    ((run1205 initialListState false
        ([count / 256, count % 256, 0, 0, 0, 0] :: cont)).1.storedVideos).length = count := by
  rw [run1205_full_exchange count cont h1 h2 hns hsum hpre]
  have hlen : (count / 256 :: count % 256 ::
      (cont.map (stripCount count)).flatten).length = 2 + 18 * count := by
    simp [hsum]
    omega
  rw [parseEntries_eq]
  have hdiv : ((count / 256 :: count % 256 ::
      (cont.map (stripCount count)).flatten).length - 2) / 18 = count := by
    rw [hlen]
    omega
  rw [hdiv, Nat.min_self]
  constructor
  · simp
  · simp

/-- C3 witness: count = 1, one 18-octet continuation frame. -/
theorem fragmented_list_stores_count_entries_witness :
    (0 < 1 ∧ 1 ≤ 1000 ∧
      (∀ f ∈ ([(List.range 18).map (fun j => j + 3)] : List (List Nat)),
        isCountInit f = true → u16of f = 1) ∧
      ((([(List.range 18).map (fun j => j + 3)] : List (List Nat)).map
          (stripCount 1)).flatten).length = 18 * 1 ∧
      (∀ n < ([(List.range 18).map (fun j => j + 3)] : List (List Nat)).length,
        (((([(List.range 18).map (fun j => j + 3)] : List (List Nat)).take n).map
            (stripCount 1)).flatten).length < 18 * 1)) ∧
    (run1205 initialListState false
        ([1 / 256, 1 % 256, 0, 0, 0, 0] :: [(List.range 18).map (fun j => j + 3)])).1.storedVideos
      = (List.range 1).map (fun i =>
          decodeEntry (1 / 256 :: 1 % 256 ::
              (([(List.range 18).map (fun j => j + 3)] : List (List Nat)).map
                (stripCount 1)).flatten)
            (2 + 18 * i) i) ∧
    ((run1205 initialListState false
        ([1 / 256, 1 % 256, 0, 0, 0, 0] :: [(List.range 18).map (fun j => j + 3)])).1.storedVideos).length = 1 :=
  ⟨⟨by decide, by decide, by decide, by decide, by decide⟩,
    fragmented_list_stores_count_entries 1 [(List.range 18).map (fun j => j + 3)]
      (by decide) (by decide) (by decide) (by decide) (by decide)⟩

/-- C4 counterexample: over a complete fragmented exchange (count = 1 then
one 18-octet continuation) the handler sends *two* 0x0001 terminal responses
with reply id 0x9205 — one acknowledging the count frame, one at completion —
refuting "exactly one". -/
theorem fragmented_list_two_acks :
    (run1205 initialListState false
        [[0, 1, 0, 0, 0, 0], (List.range 18).map (fun j => j + 1)]).2 = [0x9205, 0x9205] ∧
    ((run1205 initialListState false
        [[0, 1, 0, 0, 0, 0], (List.range 18).map (fun j => j + 1)]).2).length ≠ 1 := by
  constructor <;> decide

/-- C4 amended: over a complete fragmented stored-video-list exchange the
handler sends exactly two 0x0001 terminal responses with reply id 0x9205:
one acknowledging the count-initialisation frame and one at completion. -/
theorem fragmented_list_ack_count (count : Nat) (cont : List (List Nat))
    (h1 : 0 < count) (h2 : count ≤ 1000)
    (hns : ∀ f ∈ cont, isCountInit f = true → u16of f = count)
    (hsum : ((cont.map (stripCount count)).flatten).length = 18 * count)
    (hpre : ∀ n < cont.length,
      (((cont.take n).map (stripCount count)).flatten).length < 18 * count) :
    (run1205 initialListState false
        ([count / 256, count % 256, 0, 0, 0, 0] :: cont)).2 = [0x9205, 0x9205] := by
  rw [run1205_full_exchange count cont h1 h2 hns hsum hpre]

/-- C4 amended witness: count = 2 with two 18-octet continuation frames. -/
theorem fragmented_list_ack_count_witness :
    (0 < 2 ∧ 2 ≤ 1000 ∧
      (∀ f ∈ ([(List.range 18).map (fun j => j + 1),
               (List.range 18).map (fun j => j + 5)] : List (List Nat)),
        isCountInit f = true → u16of f = 2) ∧
      ((([(List.range 18).map (fun j => j + 1),
          (List.range 18).map (fun j => j + 5)] : List (List Nat)).map
          (stripCount 2)).flatten).length = 18 * 2 ∧
      (∀ n < ([(List.range 18).map (fun j => j + 1),
               (List.range 18).map (fun j => j + 5)] : List (List Nat)).length,
        (((([(List.range 18).map (fun j => j + 1),
             (List.range 18).map (fun j => j + 5)] : List (List Nat)).take n).map
            (stripCount 2)).flatten).length < 18 * 2)) ∧
    (run1205 initialListState false
        ([2 / 256, 2 % 256, 0, 0, 0, 0] ::
          [(List.range 18).map (fun j => j + 1),
           (List.range 18).map (fun j => j + 5)])).2 = [0x9205, 0x9205] :=
  ⟨⟨by decide, by decide, by decide, by decide, by decide⟩,
    fragmented_list_ack_count 2
      [(List.range 18).map (fun j => j + 1), (List.range 18).map (fun j => j + 5)]
      (by decide) (by decide) (by decide) (by decide) (by decide)⟩

theorem isPotentialList_len (body : List Nat) (h : isPotentialList body = true) :
    2 ≤ body.length := by
  by_cases h2 : 2 ≤ body.length
  · exact h2
  · rw [isPotentialList, if_neg h2] at h
    exact absurd h (by simp)

/-- C9 counterexample: with no assembly active, a 68-octet body declaring
count 3 is accepted as a complete list (the source also tolerates the
22-octet entry format: |68 − (2 + 22·3)| = 0), although the claim's predicate
|68 − (2 + 18·3)| = 12 > 10 says it must be treated as stored-video-data. -/
theorem list_detection_22_byte_tolerance :
    (step1205 initialListState false ([0, 3] ++ List.replicate 66 1)).1.listReceived = true ∧
    specListDetect ([0, 3] ++ List.replicate 66 1) = false := by
  constructor <;> decide

/-- C9 amended: with no assembly active and the legacy query flag unset, a
0x1205 body is treated as a complete list response (acked and published,
leaving no assembly open) iff it is not a 6-octet count-initialisation body
and passes the source's detection heuristic — count ≤ 1000 and body length
within 10 octets of the 18-octet size or the 22-octet size, or a small
zero-count body.  (A count-initialisation body instead opens an assembly;
everything else falls into the dead duplicate 0x1205 arm and is ignored.) -/
theorem list_detection_characterization (st : ListState) (body : List Nat)
    (h : st.count = none) :
    ((step1205 st false body).2 ≠ [] ∧ (step1205 st false body).1.count = none)
      ↔ (isCountInit body = false ∧ isPotentialList body = true) := by
  by_cases hci : isCountInit body = true
  · have hstep : step1205 st false body
        = (initAssemblyState st (u16of body) body, [0x9205]) := by
      rw [step1205, if_pos hci, if_neg (by rw [h]; simp)]
    rw [hstep]
    simp [initAssemblyState, hci]
  · have hci' : isCountInit body = false := by
      revert hci
      cases isCountInit body <;> simp
    by_cases hp : isPotentialList body = true
    · have h2 : 2 ≤ body.length := isPotentialList_len body hp
      have hstep : step1205 st false body
          = ({ st with storedVideos := parseEntries body 2 0 (u16of body), listReceived := true },
             [0x9205]) := by
        rw [step1205, if_neg (by rw [hci']; simp), h]
        rw [show ((isPotentialList body || (false && decide (body.length < 1000))) = true)
            from by rw [hp]; simp]
        rw [if_pos rfl]
        rw [parse_video_list_response, if_neg (by omega)]
      rw [hstep]
      simp [hci', hp, h]
    · have hp' : isPotentialList body = false := by
        revert hp
        cases isPotentialList body <;> simp
      have hstep : step1205 st false body = (st, []) := by
        rw [step1205, if_neg (by rw [hci']; simp), h]
        rw [if_neg (by rw [hp']; simp)]
      rw [hstep]
      simp [hp']

/-- C9 amended witness: a 20-octet body declaring count 1 (exact 18-octet
size) is treated as a complete list from the fresh session state. -/
theorem list_detection_characterization_witness :
    initialListState.count = none ∧
      (((step1205 initialListState false ([0, 1] ++ List.replicate 18 5)).2 ≠ [] ∧
          (step1205 initialListState false ([0, 1] ++ List.replicate 18 5)).1.count = none)
        ↔ (isCountInit ([0, 1] ++ List.replicate 18 5) = false ∧
            isPotentialList ([0, 1] ++ List.replicate 18 5) = true)) :=
  ⟨rfl, list_detection_characterization initialListState ([0, 1] ++ List.replicate 18 5) rfl⟩

end Dashcam
